import Mathlib

/-!
Verification development for the Handy Mechanic AI repository.

The subject of the specification is the Retrieval-Augmented Diagnosis
Engine.  Its production implementation (`lib/rag/diagnostic-rag.ts`,
class `EnhancedDiagnosticRAG`) is imported by the diagnose route
(`src/unnamed/part_004`) but the file itself is not part of the source
tree we were given; only its callers and a client-side analogue
(`performAIDiagnosis` in `src/unnamed/part_000`) are present.  Where a
claim is decided by the missing engine we model the component from the
specification; every such definition carries a doc comment starting
with `Modelled from the spec:`.  Where a claim is decided by code that
is present (the JSON extraction regex of `performAIDiagnosis`,
`src/unnamed/part_000` line 648, and the diagnose route handler,
`src/unnamed/part_004`), the definitions are translated from that
source directly.
-/

namespace HandyMechanic

/-! ### Basic data model (spec §3) -/

/-- Modelled from the spec: severity levels of a diagnosis
(`low | medium | high | critical`, spec §3). -/
inductive Severity where
  | low
  | medium
  | high
  | critical
deriving DecidableEq, Repr

/-- Modelled from the spec: an `EvidenceDocument`, the immutable
knowledge unit stored in the Evidence Store (spec §3).  The
`vehicleScope` record is inlined as the four fields `make`, `model`,
`yearMin`, `yearMax`.  The stored embedding vector plays no role in the
claims (similarity scores are supplied by the environment), so it is
omitted from the model. -/
structure EvidenceDocument where
  id : String
  make : String
  model : String
  yearMin : Int
  yearMax : Int
  component : String
  symptomText : String
  diagnosisText : String
  remedyText : String
  severity : Severity
deriving DecidableEq, Repr

/-- Modelled from the spec: the vehicle part of a `DiagnosticQuery`
(spec §3). -/
structure VehicleInfo where
  year : Int
  make : String
  model : String
  vin : Option String
  mileage : Option Nat
deriving DecidableEq, Repr

/-- Modelled from the spec: the optional audio-derived signal
`\x7blabel, confidence\x7d` attached to a query (spec §3).  Fractional
quantities of the spec (confidences, similarities, prices) are modelled
throughout as integers in hundredths, so a confidence of 0.9 is the
integer 90; the arithmetic of the spec is exact at this resolution. -/
structure AudioSignal where
  label : String
  confidence : Int
deriving DecidableEq, Repr

/-- Modelled from the spec: a `DiagnosticQuery` (spec §3). -/
structure DiagnosticQuery where
  vehicle : VehicleInfo
  symptomText : String
  audioSignal : Option AudioSignal
  photoCount : Option Nat
deriving DecidableEq, Repr

/-- Modelled from the spec: an `EvidenceMatch`, the result of
retrieval: a document together with its similarity score
(spec §3; in hundredths, so the cosine range [-1,1] is [-100,100]). -/
structure EvidenceMatch where
  document : EvidenceDocument
  similarityScore : Int
deriving DecidableEq, Repr

/-- Modelled from the spec: one repair step of a report
(spec §3: stepNumber, title, description, estimatedDuration). -/
structure RepairStep where
  stepNumber : Nat
  title : String
  description : String
  estimatedDuration : String
deriving DecidableEq, Repr

/-- Modelled from the spec: a price range with a minimum and a
maximum. -/
structure CostRange where
  min : Int
  max : Int
deriving DecidableEq, Repr

/-- Modelled from the spec: the `estimatedCost` record of a report
(spec §3). -/
structure EstimatedCost where
  partsRange : CostRange
  laborRange : CostRange
  totalRange : CostRange
  diyPossible : Bool
deriving DecidableEq, Repr

/-- Modelled from the spec: a named part with its estimated price
range (spec §3, `partsNeeded`). -/
structure PartNeeded where
  name : String
  estimatedPriceRange : CostRange
deriving DecidableEq, Repr

/-- Modelled from the spec: the `DiagnosticReport` returned by the
engine (spec §3). -/
structure DiagnosticReport where
  primaryDiagnosis : String
  differential : List String
  confidence : Int
  severity : Severity
  safeToDrive : Bool
  repairSteps : List RepairStep
  partsNeeded : List PartNeeded
  estimatedCost : EstimatedCost
  safetyWarnings : List String
  citedEvidenceIds : List String
  usedFallback : Bool
deriving DecidableEq, Repr

/-! ### JSON-span extraction (`src/unnamed/part_000`, line 648)

`performAIDiagnosis` locates the structured object in the generative
service's free-form reply with
`resultText.match(/\x7b[\s\S]*\x7d/)` and passes the matched span to
`JSON.parse`.  Without the `g` flag this JavaScript regex produces the
leftmost match, and the greedy `[\s\S]*` stretches it to the last
closing brace of the text: the match is exactly the span from the
first `\x7b` of the text to the last `\x7d` that follows it, and there is no
match at all when no `\x7d` follows the first `\x7b` (in which case no later
`\x7b` can start a match either).  `jsonSpanMatch` below is that
semantics, written on `List Char`. -/

/-- The opening-brace character (codepoint 123). -/
def obrace : Char := Char.ofNat 123

/-- The closing-brace character (codepoint 125). -/
def cbrace : Char := Char.ofNat 125

/-- Truncate a character list just after its last closing brace;
`none` when it contains no closing brace.  Helper for
`jsonSpanMatch`. -/
def dropAfterLastClose : List Char → Option (List Char)
  | [] => none
  | c :: cs =>
    match dropAfterLastClose cs with
    | some t => some (c :: t)
    | none => if c = cbrace then some [c] else none

/-- Semantics of `resultText.match(/\x7b[\s\S]*\x7d/)` from
`performAIDiagnosis` (`src/unnamed/part_000` line 648): the span from
the first opening brace of the text to the last closing brace after
it, `none` when no such span exists. -/
def jsonSpanMatch : List Char → Option (List Char)
  | [] => none
  | c :: cs =>
    if c = obrace then
      match dropAfterLastClose cs with
      | some t => some (c :: t)
      | none => none
    else jsonSpanMatch cs

/-- Consume characters until the brace depth (initially `d`, assumed
positive) returns to zero, returning the consumed prefix including the
final closing brace.  Helper for `firstBalancedBlock`. -/
def matchFrom : Nat → List Char → Option (List Char)
  | _, [] => none
  | d, c :: cs =>
    if c = obrace then (matchFrom (d + 1) cs).map (fun t => c :: t)
    else if c = cbrace then
      if d = 1 then some [c]
      else (matchFrom (d - 1) cs).map (fun t => c :: t)
    else (matchFrom d cs).map (fun t => c :: t)

/-- Written from the spec's words for comparison with `jsonSpanMatch`
(spec §6: extraction via locating the first balanced `\x7b...\x7d` block):
the balanced brace block with the leftmost opening brace that actually
closes. -/
def firstBalancedBlock : List Char → Option (List Char)
  | [] => none
  | c :: cs =>
    if c = obrace then
      match matchFrom 1 cs with
      | some blk => some (c :: blk)
      | none => firstBalancedBlock cs
    else firstBalancedBlock cs

/-! ### Evidence Retriever (spec §4.2)

All of §4.2 lives in the missing `lib/rag/diagnostic-rag.ts`; the whole
pipeline below is modelled from the spec.  The embedding service and
the Evidence Store's nearest-neighbour search are external
collaborators, so the model takes the per-request similarity
assignment `score : EvidenceDocument → Int` as an environment
parameter instead of computing vectors. -/

/-- Modelled from the spec: extra repetitions of the audio label,
one per 0.2 of confidence above 0.5 (spec §4.2 step 1); confidence in
hundredths, so one repeat per 20 hundredths above 50. -/
def audioExtraRepeats (c : Int) : Nat :=
  if 50 < c then ((c - 50) / 20).toNat else 0

/-- Modelled from the spec: total number of occurrences of the audio
label in the composed query: the label itself plus its
confidence-weighted repeats (spec §4.2 step 1). -/
def audioOccurrences (c : Int) : Nat :=
  1 + audioExtraRepeats c

/-- Modelled from the spec: the composed retrieval query as its list
of concatenated parts, in fixed order: vehicle year, make, model, the
symptom text, then the weighted audio label (spec §4.2 step 1).  The
string passed to the embedder is these parts joined by spaces
(`composedQueryString`). -/
def composeQueryParts (q : DiagnosticQuery) : List String :=
  [toString q.vehicle.year, q.vehicle.make, q.vehicle.model, q.symptomText] ++
    (match q.audioSignal with
     | none => []
     | some a => List.replicate (audioOccurrences a.confidence) a.label)

/-- Modelled from the spec: the composed query string passed to the
embedding service (spec §4.2 steps 1-2). -/
def composedQueryString (q : DiagnosticQuery) : String :=
  String.intercalate " " (composeQueryParts q)

/-- Modelled from the spec: the metadata pre-filter of §4.2 step 3: a
document applies when its `vehicleScope` contains the query vehicle's
make and its year range contains the query year. -/
def vehicleMatches (q : DiagnosticQuery) (d : EvidenceDocument) : Bool :=
  d.make = q.vehicle.make && d.yearMin ≤ q.vehicle.year && q.vehicle.year ≤ d.yearMax

/-- Modelled from the spec: every store document paired with the
similarity the embedding+store environment assigns it for this
request. -/
def candidatesFor (store : List EvidenceDocument) (score : EvidenceDocument → Int) :
    List EvidenceMatch :=
  store.map (fun d => ⟨d, score d⟩)

/-- Modelled from the spec: the candidate pool after the vehicle
pre-filter, falling back to the unfiltered candidates when the filter
leaves nothing (spec §4.2 step 3, graceful degradation). -/
def poolFor (store : List EvidenceDocument) (score : EvidenceDocument → Int)
    (q : DiagnosticQuery) : List EvidenceMatch :=
  let cands := candidatesFor store score
  let filtered := cands.filter (fun m => vehicleMatches q m.document)
  if filtered.isEmpty then cands else filtered

/-- Modelled from the spec: the matches at or above the minimum
similarity threshold (spec §4.2 step 4; default threshold 0.15, that
is 15 hundredths). -/
def keptFor (τ : Int) (pool : List EvidenceMatch) : List EvidenceMatch :=
  pool.filter (fun m => τ ≤ m.similarityScore)

/-- Fold picking the higher-scoring of the accumulator and each list
element; the single best match of `a :: l`. -/
def bestOf (a : EvidenceMatch) (l : List EvidenceMatch) : EvidenceMatch :=
  l.foldl (fun acc m => if acc.similarityScore < m.similarityScore then m else acc) a

/-- Modelled from the spec: threshold filtering with the
never-return-zero-evidence escape: when the filter empties the result
and the pool is non-empty, keep the single best match regardless of
threshold (spec §4.2 step 4). -/
def selectFor (τ : Int) (pool : List EvidenceMatch) : List EvidenceMatch :=
  let kept := keptFor τ pool
  if kept.isEmpty then
    match pool with
    | [] => []
    | p :: ps => [bestOf p ps]
  else kept

/-- Keep the first match for each document id, dropping matches whose
id is in `seen` or already emitted.  Helper for `dedupeById`. -/
def dedupeAux (seen : List String) : List EvidenceMatch → List EvidenceMatch
  | [] => []
  | m :: ms =>
    if m.document.id ∈ seen then dedupeAux seen ms
    else m :: dedupeAux (m.document.id :: seen) ms

/-- Modelled from the spec: deduplication by document id, keeping the
first occurrence (spec §4.2 step 5). -/
def dedupeById (l : List EvidenceMatch) : List EvidenceMatch :=
  dedupeAux [] l

/-- Insert a match into a list sorted by descending similarity,
keeping it sorted.  Helper for `sortBySimilarityDesc`. -/
def insertDesc (m : EvidenceMatch) : List EvidenceMatch → List EvidenceMatch
  | [] => [m]
  | x :: xs =>
    if m.similarityScore ≤ x.similarityScore then x :: insertDesc m xs
    else m :: x :: xs

/-- Modelled from the spec: sort by descending similarity (spec §4.2
step 5), as an insertion sort. -/
def sortBySimilarityDesc (l : List EvidenceMatch) : List EvidenceMatch :=
  l.foldr insertDesc []

/-- Modelled from the spec: the default result-size bound K = 5
(spec §4.2). -/
def defaultK : Nat := 5

/-- Modelled from the spec: the default minimum similarity threshold
0.15, in hundredths (spec §4.2 step 4). -/
def defaultMinSimilarity : Int := 15

/-- Modelled from the spec: the Evidence Retriever pipeline of §4.2:
compose+embed (absorbed into `score`), vehicle-filtered
nearest-neighbour pool, threshold filter with single-best escape,
dedupe by id, sort by descending similarity, truncate to `K`. -/
def retrieve (K : Nat) (τ : Int) (store : List EvidenceDocument)
    (score : EvidenceDocument → Int) (q : DiagnosticQuery) : List EvidenceMatch :=
  (sortBySimilarityDesc (dedupeById (selectFor τ (poolFor store score q)))).take K

/-! ### Diagnosis Synthesizer (spec §4.3)

Also part of the missing `lib/rag/diagnostic-rag.ts`; modelled from
the spec.  The generative call is represented by its outcome: a
transport error, a timeout, a reply without a parseable JSON object,
or a parsed provisional structure that still has to pass validation
(spec §9: parse into a provisional structure, then run explicit
validation). -/

/-- Modelled from the spec: the provisional structure parsed from the
generative service's reply, before validation (spec §4.3 step 3).  The
severity arrives as an untrusted string; numbering of repair steps and
cost ranges are unchecked. -/
structure ParsedReport where
  primaryDiagnosis : String
  differential : List String
  confidence : Int
  severity : String
  safeToDrive : Bool
  repairSteps : List RepairStep
  partsNeeded : List PartNeeded
  estimatedCost : EstimatedCost
  safetyWarnings : List String
  citedEvidenceIds : List String
deriving DecidableEq, Repr

/-- Modelled from the spec: the outcome of the external generation
call (spec §4.3 step 2): transport error, hard timeout, a reply with
no JSON-shaped object, or a parsed provisional report. -/
inductive GenOutcome where
  | transportError
  | timeout
  | unparseable
  | parsed (p : ParsedReport)
deriving DecidableEq, Repr

/-- Modelled from the spec: decode the severity string of a parsed
reply; `none` when it is not one of the four allowed levels
(spec §4.3 validation rule 2). -/
def parseSeverity : String → Option Severity
  | "low" => some Severity.low
  | "medium" => some Severity.medium
  | "high" => some Severity.high
  | "critical" => some Severity.critical
  | _ => none

/-- Modelled from the spec: repair-step numbers are contiguous
starting at 1 (spec §4.3 validation rule 4); an empty list passes
vacuously. -/
def stepsContiguous (steps : List RepairStep) : Bool :=
  steps.map (fun s => s.stepNumber) = List.range' 1 steps.length

/-- Modelled from the spec: a cost range is well-formed when
`0 ≤ min ≤ max` (spec §4.3 validation rule 5). -/
def costRangeOk (r : CostRange) : Bool :=
  0 ≤ r.min && r.min ≤ r.max

/-- Modelled from the spec: all three ranges of an estimated cost are
well-formed (spec §4.3 validation rule 5). -/
def costOk (c : EstimatedCost) : Bool :=
  costRangeOk c.partsRange && costRangeOk c.laborRange && costRangeOk c.totalRange

/-- Modelled from the spec: the hard validation rules of §4.3 step 3,
all of which must hold or the parsed reply is rejected: non-empty
primary diagnosis, recognised severity, confidence in [0,1] (0 to 100
hundredths), contiguous step numbers, well-formed cost ranges.  The
citation rule is deliberately not here: unknown cited ids are stripped
rather than causing rejection. -/
def hardRulesHold (p : ParsedReport) : Bool :=
  (p.primaryDiagnosis ≠ "" : Bool)
    && (parseSeverity p.severity).isSome
    && (0 ≤ p.confidence && p.confidence ≤ 100)
    && stepsContiguous p.repairSteps
    && costOk p.estimatedCost

/-- Document ids surfaced by a retrieval result. -/
def evidenceIds (ev : List EvidenceMatch) : List String :=
  ev.map (fun m => m.document.id)

/-- Modelled from the spec: validation of a parsed reply against the
hard rules, producing the validated report on success.  Cited ids not
present in the supplied evidence are stripped, not fatal (spec §4.3
step 3, citation rule). -/
def validateParsed (ids : List String) (p : ParsedReport) : Option DiagnosticReport :=
  (parseSeverity p.severity).bind (fun sev =>
    if hardRulesHold p then
      some
        { primaryDiagnosis := p.primaryDiagnosis
          differential := p.differential
          confidence := p.confidence
          severity := sev
          safeToDrive := p.safeToDrive
          repairSteps := p.repairSteps
          partsNeeded := p.partsNeeded
          estimatedCost := p.estimatedCost
          safetyWarnings := p.safetyWarnings
          citedEvidenceIds := p.citedEvidenceIds.filter (fun i => i ∈ ids)
          usedFallback := false }
    else none)

/-- Modelled from the spec: `safeToDrive` is false exactly for the
high and critical severities (spec §4.3 step 4). -/
def safeFor (s : Severity) : Bool :=
  match s with
  | Severity.high => false
  | Severity.critical => false
  | _ => true

/-- Modelled from the spec: generic repair steps synthesized from the
remedy text, split into at most 3 steps, numbered from 1
(spec §4.3 step 4). -/
def fallbackSteps (remedy : String) : List RepairStep :=
  (List.enumFrom 1 ((remedy.splitOn ". ").take 3)).map
    (fun it => ⟨it.1, "Repair step", it.2, "varies"⟩)

/-- Modelled from the spec: the generic primary diagnosis used when no
evidence is available (spec §4.3 step 4). -/
def insufficientInfoMessage : String :=
  "Insufficient information to determine a specific diagnosis"

/-- Empty cost estimate used by the fallback report; trivially
well-formed. -/
def zeroCost : EstimatedCost :=
  ⟨⟨0, 0⟩, ⟨0, 0⟩, ⟨0, 0⟩, false⟩

/-- Modelled from the spec: deterministic fallback synthesis from the
best-available evidence (spec §4.3 step 4): primary diagnosis and
severity from the top evidence match (generic message and `medium`
without evidence), `safeToDrive` false exactly for high/critical,
confidence 0.3 (30) with evidence and 0.1 (10) without, generic steps
from the remedy text, `usedFallback = true`, citing exactly the
evidence actually used. -/
def fallbackReport (ev : List EvidenceMatch) : DiagnosticReport :=
  match ev with
  | [] =>
    { primaryDiagnosis := insufficientInfoMessage
      differential := []
      confidence := 10
      severity := Severity.medium
      safeToDrive := safeFor Severity.medium
      repairSteps := []
      partsNeeded := []
      estimatedCost := zeroCost
      safetyWarnings := []
      citedEvidenceIds := []
      usedFallback := true }
  | top :: _ =>
    { primaryDiagnosis := top.document.diagnosisText
      differential := []
      confidence := 30
      severity := top.document.severity
      safeToDrive := safeFor top.document.severity
      repairSteps := fallbackSteps top.document.remedyText
      partsNeeded := []
      estimatedCost := zeroCost
      safetyWarnings := []
      citedEvidenceIds := [top.document.id]
      usedFallback := true }

/-- Modelled from the spec: the Diagnosis Synthesizer (spec §4.3):
transport errors, timeouts and unparseable replies go straight to the
fallback; a parsed reply is validated and, when any hard rule fails,
discarded in favour of the fallback. -/
def synthesize (ev : List EvidenceMatch) (g : GenOutcome) : DiagnosticReport :=
  match g with
  | GenOutcome.transportError => fallbackReport ev
  | GenOutcome.timeout => fallbackReport ev
  | GenOutcome.unparseable => fallbackReport ev
  | GenOutcome.parsed p =>
    match validateParsed (evidenceIds ev) p with
    | some r => r
    | none => fallbackReport ev

/-- The generation path succeeded: the outcome is a parsed reply that
passes validation against the supplied evidence. -/
def generationSucceeds (g : GenOutcome) (ev : List EvidenceMatch) : Bool :=
  match g with
  | GenOutcome.parsed p => (validateParsed (evidenceIds ev) p).isSome
  | _ => false

/-- Structural validity of a report, as the output contract demands
(spec §3 and §8): non-empty primary diagnosis, confidence within
[0,1], contiguous repair steps, well-formed cost ranges. -/
def validReport (r : DiagnosticReport) : Bool :=
  (r.primaryDiagnosis ≠ "" : Bool)
    && (0 ≤ r.confidence && r.confidence ≤ 100)
    && stepsContiguous r.repairSteps
    && costOk r.estimatedCost

/-! ### Diagnosis Engine orchestrator (spec §4.4, §5, §7)

Modelled from the spec.  One request's interaction with the outside
world is summarised by an `Env`: whether the caller cancelled, whether
the Evidence Store was reachable, the similarity assignment of the
embedding+store pair, and the generation outcome.  `diagnose` also
returns the list of external calls it performed, so that fail-fast
properties (no external call on an invalid query) are statable. -/

/-- Modelled from the spec: the only two error kinds that may escape
the engine (spec §6, caller contract). -/
inductive DiagError where
  | invalidQuery
  | cancelled
deriving DecidableEq, Repr

/-- External calls the engine can make: the embedding call, the
Evidence Store query, and the generation call (spec §5). -/
inductive ExtCall where
  | embedCall
  | storeQuery
  | genCall
deriving DecidableEq, Repr

/-- Modelled from the spec: the external world as one request
observes it. -/
structure Env where
  cancelled : Bool
  storeReachable : Bool
  score : EvidenceDocument → Int
  gen : GenOutcome

/-- The symptom text is empty after trimming: every character is
whitespace (spec §3 invariant). -/
def trimmedEmpty (s : String) : Bool :=
  s.toList.all Char.isWhitespace

/-- Modelled from the spec: the evidence sequence the engine obtains
for a request: the retriever's result, degraded to the empty sequence
when the Evidence Store is unreachable (spec §4.2 failure clause). -/
def retrievedEvidence (store : List EvidenceDocument) (env : Env)
    (q : DiagnosticQuery) : List EvidenceMatch :=
  if env.storeReachable then retrieve defaultK defaultMinSimilarity store env.score q
  else []

/-- Modelled from the spec: the Diagnosis Engine's `diagnose`
(spec §4.4): validate the query (fail fast with `InvalidQueryError`,
making no external call), honour cancellation with a
`CancellationError`, then retrieve (never failing the request) and
synthesize, returning the report unconditionally together with the
external calls made. -/
def diagnose (store : List EvidenceDocument) (env : Env) (q : DiagnosticQuery) :
    Except DiagError DiagnosticReport × List ExtCall :=
  if trimmedEmpty q.symptomText then (Except.error DiagError.invalidQuery, [])
  else if env.cancelled then (Except.error DiagError.cancelled, [])
  else
    (Except.ok (synthesize (retrievedEvidence store env q) env.gen),
      [ExtCall.embedCall, ExtCall.storeQuery, ExtCall.genCall])

/-- Report a property of the report inside an engine result, `False`
on errors. -/
def reportSat (P : DiagnosticReport → Prop) : Except DiagError DiagnosticReport → Prop
  | Except.ok r => P r
  | Except.error _ => False

/-- The `usedFallback` flag of the report inside an engine result,
`none` on errors. -/
def resultUsedFallback : Except DiagError DiagnosticReport → Option Bool
  | Except.ok r => some r.usedFallback
  | Except.error _ => none

/-- Every document of the store carries a non-empty diagnosis text;
the fallback path inherits its primary diagnosis from it. -/
def storeWF (store : List EvidenceDocument) : Prop :=
  ∀ d ∈ store, d.diagnosisText ≠ ""

instance (store : List EvidenceDocument) : Decidable (storeWF store) :=
  List.decidableBAll _ store

/-! ### The diagnose route handler (`src/unnamed/part_004`, POST)

Translated from the source.  The handler's interaction with its
collaborators is summarised by a `RouteEnv`: the outcome of
authentication (lines 14-20), the user lookup and its credit balance
(lines 23-41), the required-field check (lines 62-68), the diagnosis
the RAG engine returns (line 129), and whether the credit decrement
(lines 139-147) and the save (lines 152-188) succeed.  The handler's
observable behaviour is its HTTP response, the ordered list of effects
it performed, and the user's resulting credit balance. -/

/-- Effects of the diagnose route, in the order the handler performs
them: generating the diagnosis (`part_004` line 129), decrementing the
user's credits (line 139), saving the diagnosis row (line 152). -/
inductive RouteEvent where
  | generate
  | decrement
  | save
deriving DecidableEq, Repr

/-- Outcome environment of one POST to the diagnose route
(`src/unnamed/part_004`). -/
structure RouteEnv where
  authOk : Bool
  userFound : Bool
  credits : Int
  fieldsOk : Bool
  diagnosis : DiagnosticReport
  decrementOk : Bool
  saveOk : Bool

/-- Responses of the diagnose route, by status code: 401 (line 16),
404 (line 30), 402 insufficient credits (line 37), 400 missing fields
(line 64), 200 with the diagnosis (line 199). -/
inductive RouteResponse where
  | unauthorized
  | userNotFound
  | insufficientCredits
  | missingFields
  | success (d : DiagnosticReport)
deriving DecidableEq, Repr

/-- The POST handler of `src/unnamed/part_004`, lines 9-207: guard
chain (auth, user lookup, `credits < 1`, required fields), then
generate the diagnosis, then decrement credits — a decrement error is
logged and execution continues (lines 144-147) — then save the row — a
save error is likewise only logged (lines 186-188) — and finally
return 200 with the diagnosis.  Returns the response, the effect
trace, and the resulting credit balance. -/
def diagnoseRoutePOST (env : RouteEnv) : RouteResponse × List RouteEvent × Int :=
  if !env.authOk then (RouteResponse.unauthorized, [], env.credits)
  else if !env.userFound then (RouteResponse.userNotFound, [], env.credits)
  else if env.credits < 1 then (RouteResponse.insufficientCredits, [], env.credits)
  else if !env.fieldsOk then (RouteResponse.missingFields, [], env.credits)
  else
    (RouteResponse.success env.diagnosis,
      [RouteEvent.generate, RouteEvent.decrement, RouteEvent.save],
      if env.decrementOk then env.credits - 1 else env.credits)

/-! ### Lemmas about the retrieval pipeline -/

/-- Descending order on matches by similarity score. -/
def scoreGE (a b : EvidenceMatch) : Prop :=
  b.similarityScore ≤ a.similarityScore

/-- Unfolding equation for `insertDesc` on a cons cell. -/
theorem insertDesc_cons (m x : EvidenceMatch) (xs : List EvidenceMatch) :
    insertDesc m (x :: xs) =
      if m.similarityScore ≤ x.similarityScore then x :: insertDesc m xs
      else m :: x :: xs := rfl

/-- Unfolding equation for the insertion sort on a cons cell. -/
theorem sortBySimilarityDesc_cons (x : EvidenceMatch) (xs : List EvidenceMatch) :
    sortBySimilarityDesc (x :: xs) = insertDesc x (sortBySimilarityDesc xs) := rfl

/-- Insertion produces a permutation of consing. -/
theorem insertDesc_perm (m : EvidenceMatch) (l : List EvidenceMatch) :
    (insertDesc m l).Perm (m :: l) := by
  induction l with
  | nil => simp [insertDesc]
  | cons x xs ih =>
    rw [insertDesc_cons]
    by_cases h : m.similarityScore ≤ x.similarityScore
    · rw [if_pos h]
      exact (ih.cons x).trans (List.Perm.swap m x xs)
    · rw [if_neg h]

/-- The insertion sort permutes its input. -/
theorem sortBySimilarityDesc_perm (l : List EvidenceMatch) :
    (sortBySimilarityDesc l).Perm l := by
  induction l with
  | nil => simp [sortBySimilarityDesc]
  | cons x xs ih =>
    rw [sortBySimilarityDesc_cons]
    exact (insertDesc_perm x _).trans (ih.cons x)

/-- Insertion preserves descending sortedness. -/
theorem insertDesc_sorted (m : EvidenceMatch) (l : List EvidenceMatch)
    (h : l.Pairwise scoreGE) : (insertDesc m l).Pairwise scoreGE := by
  induction l with
  | nil => simp [insertDesc, List.Pairwise, scoreGE]
  | cons x xs ih =>
    rcases List.pairwise_cons.mp h with ⟨hx, hxs⟩
    rw [insertDesc_cons]
    by_cases hc : m.similarityScore ≤ x.similarityScore
    · rw [if_pos hc]
      refine List.pairwise_cons.mpr ⟨?_, ih hxs⟩
      intro b hb
      have := (insertDesc_perm m xs).mem_iff.mp hb
      rcases List.mem_cons.mp this with h1 | h2
      · subst h1; exact hc
      · exact hx b h2
    · rw [if_neg hc]
      push_neg at hc
      refine List.pairwise_cons.mpr ⟨?_, h⟩
      intro b hb
      rcases List.mem_cons.mp hb with h1 | h2
      · subst h1; exact le_of_lt hc
      · exact le_trans (hx b h2) (le_of_lt hc)

/-- The insertion sort yields a descending sequence of similarity
scores. -/
theorem sortBySimilarityDesc_sorted (l : List EvidenceMatch) :
    (sortBySimilarityDesc l).Pairwise scoreGE := by
  induction l with
  | nil => simp [sortBySimilarityDesc, List.Pairwise]
  | cons x xs ih =>
    rw [sortBySimilarityDesc_cons]
    exact insertDesc_sorted x _ ih

/-- Deduplication only keeps elements of the input. -/
theorem dedupeAux_subset (seen : List String) (l : List EvidenceMatch) :
    ∀ m ∈ dedupeAux seen l, m ∈ l := by
  induction l generalizing seen with
  | nil => intro m h; simp [dedupeAux] at h
  | cons x xs ih =>
    intro m h
    by_cases hx : x.document.id ∈ seen
    · simp only [dedupeAux, if_pos hx] at h
      exact List.mem_cons_of_mem x (ih seen m h)
    · simp only [dedupeAux, if_neg hx] at h
      rcases List.mem_cons.mp h with h1 | h2
      · subst h1; exact List.mem_cons_self m xs
      · exact List.mem_cons_of_mem x (ih _ m h2)

/-- Deduplication yields pairwise distinct document ids, all outside
the `seen` set. -/
theorem dedupeAux_nodup (seen : List String) (l : List EvidenceMatch) :
    ((dedupeAux seen l).map (fun m => m.document.id)).Nodup ∧
      ∀ i ∈ (dedupeAux seen l).map (fun m => m.document.id), i ∉ seen := by
  induction l generalizing seen with
  | nil => simp [dedupeAux]
  | cons x xs ih =>
    by_cases hx : x.document.id ∈ seen
    · simpa only [dedupeAux, if_pos hx] using ih seen
    · simp only [dedupeAux, if_neg hx, List.map_cons]
      rcases ih (x.document.id :: seen) with ⟨hnd, havoid⟩
      constructor
      · refine List.nodup_cons.mpr ⟨?_, hnd⟩
        intro hmem
        exact (havoid _ hmem) (List.mem_cons_self _ _)
      · intro i hi
        rcases List.mem_cons.mp hi with h1 | h2
        · subst h1; exact hx
        · intro hs
          exact (havoid i h2) (List.mem_cons_of_mem _ hs)

/-- Document ids after deduplication are pairwise distinct. -/
theorem dedupeById_nodup (l : List EvidenceMatch) :
    ((dedupeById l).map (fun m => m.document.id)).Nodup :=
  (dedupeAux_nodup [] l).1

/-- Unfolding equation for `bestOf` on a cons cell. -/
theorem bestOf_cons (a x : EvidenceMatch) (xs : List EvidenceMatch) :
    bestOf a (x :: xs) =
      bestOf (if a.similarityScore < x.similarityScore then x else a) xs := rfl

/-- The single best match is an element of the candidate list. -/
theorem bestOf_mem (a : EvidenceMatch) (l : List EvidenceMatch) :
    bestOf a l ∈ a :: l := by
  induction l generalizing a with
  | nil => simp [bestOf]
  | cons x xs ih =>
    rw [bestOf_cons]
    by_cases h : a.similarityScore < x.similarityScore
    · rw [if_pos h]
      exact List.mem_cons_of_mem a (ih x)
    · rw [if_neg h]
      rcases List.mem_cons.mp (ih a) with h1 | h2
      · rw [h1]; exact List.mem_cons_self a _
      · exact List.mem_cons_of_mem a (List.mem_cons_of_mem x h2)

/-- The single best match is at least as similar as every
candidate. -/
theorem bestOf_max (a : EvidenceMatch) (l : List EvidenceMatch) :
    ∀ m ∈ a :: l, m.similarityScore ≤ (bestOf a l).similarityScore := by
  induction l generalizing a with
  | nil =>
    intro m hm
    rcases List.mem_cons.mp hm with h1 | h2
    · subst h1; exact le_refl _
    · simp at h2
  | cons x xs ih =>
    intro m hm
    rw [bestOf_cons]
    have hab : a.similarityScore ≤
        (if a.similarityScore < x.similarityScore then x else a).similarityScore := by
      by_cases h : a.similarityScore < x.similarityScore
      · rw [if_pos h]; exact le_of_lt h
      · rw [if_neg h]
    have hxb : x.similarityScore ≤
        (if a.similarityScore < x.similarityScore then x else a).similarityScore := by
      by_cases h : a.similarityScore < x.similarityScore
      · rw [if_pos h]
      · rw [if_neg h]; push_neg at h; exact h
    have hbase := ih (if a.similarityScore < x.similarityScore then x else a)
    have hself := hbase _ (List.mem_cons_self _ xs)
    rcases List.mem_cons.mp hm with h1 | h2
    · subst h1; exact le_trans hab hself
    · rcases List.mem_cons.mp h2 with h3 | h4
      · subst h3; exact le_trans hxb hself
      · exact hbase m (List.mem_cons_of_mem _ h4)

/-- The candidate pool is contained in the candidate list. -/
theorem poolFor_subset (store : List EvidenceDocument) (score : EvidenceDocument → Int)
    (q : DiagnosticQuery) :
    ∀ m ∈ poolFor store score q, m ∈ candidatesFor store score := by
  intro m hm
  unfold poolFor at hm
  by_cases h : ((candidatesFor store score).filter
      (fun m => vehicleMatches q m.document)).isEmpty
  · simpa only [if_pos h] using hm
  · simp only [if_neg h] at hm
    exact (List.mem_filter.mp hm).1

/-- The candidate pool of a non-empty store is non-empty. -/
theorem poolFor_ne_nil (store : List EvidenceDocument) (score : EvidenceDocument → Int)
    (q : DiagnosticQuery) (hs : store ≠ []) : poolFor store score q ≠ [] := by
  unfold poolFor
  have hc : candidatesFor store score ≠ [] := by
    unfold candidatesFor
    simpa using hs
  by_cases h : ((candidatesFor store score).filter
      (fun m => vehicleMatches q m.document)).isEmpty
  · simpa only [if_pos h] using hc
  · simp only [if_neg h]
    intro hcontra
    rw [hcontra] at h
    simp at h

/-- Threshold selection only returns matches from the pool. -/
theorem selectFor_subset (τ : Int) (pool : List EvidenceMatch) :
    ∀ m ∈ selectFor τ pool, m ∈ pool := by
  intro m hm
  unfold selectFor at hm
  by_cases hk : (keptFor τ pool).isEmpty
  · rw [if_pos hk] at hm
    cases pool with
    | nil => simp at hm
    | cons p ps =>
      simp only [List.mem_singleton] at hm
      subst hm
      exact bestOf_mem p ps
  · rw [if_neg hk] at hm
    exact (List.mem_filter.mp hm).1

/-- Every retrieved match comes from the threshold-selection stage. -/
theorem mem_retrieve_mem_selectFor (K : Nat) (τ : Int) (store : List EvidenceDocument)
    (score : EvidenceDocument → Int) (q : DiagnosticQuery) :
    ∀ m ∈ retrieve K τ store score q, m ∈ selectFor τ (poolFor store score q) := by
  intro m hm
  unfold retrieve at hm
  have h1 := (List.take_sublist K _).subset hm
  have h2 := (sortBySimilarityDesc_perm _).mem_iff.mp h1
  exact dedupeAux_subset [] _ m h2

/-- Every retrieved match's document belongs to the store. -/
theorem retrieve_doc_mem_store (K : Nat) (τ : Int) (store : List EvidenceDocument)
    (score : EvidenceDocument → Int) (q : DiagnosticQuery) :
    ∀ m ∈ retrieve K τ store score q, m.document ∈ store := by
  intro m hm
  have h1 := mem_retrieve_mem_selectFor K τ store score q m hm
  have h2 := selectFor_subset _ _ m (by exact h1)
  have h3 := poolFor_subset store score q m h2
  unfold candidatesFor at h3
  rcases List.mem_map.mp h3 with ⟨d, hd, hdm⟩
  rw [← hdm]
  exact hd

/-- When the threshold filter keeps something, selection is exactly
the filtered list. -/
theorem selectFor_of_kept_ne_nil (τ : Int) (pool : List EvidenceMatch)
    (h : keptFor τ pool ≠ []) : selectFor τ pool = keptFor τ pool := by
  unfold selectFor
  rw [if_neg (by simpa [List.isEmpty_iff] using h)]

/-- When the threshold filter keeps nothing and the pool is
non-empty, selection is the singleton best match. -/
theorem selectFor_of_kept_nil (τ : Int) (p : EvidenceMatch) (ps : List EvidenceMatch)
    (h : keptFor τ (p :: ps) = []) : selectFor τ (p :: ps) = [bestOf p ps] := by
  unfold selectFor
  rw [if_pos (by simpa [List.isEmpty_iff] using h)]

/-- Deduplication of a non-empty list is non-empty. -/
theorem dedupeById_ne_nil (l : List EvidenceMatch) (h : l ≠ []) :
    dedupeById l ≠ [] := by
  cases l with
  | nil => exact absurd rfl h
  | cons x xs =>
    unfold dedupeById dedupeAux
    rw [if_neg (List.not_mem_nil x.document.id)]
    exact List.cons_ne_nil x _

/-- Sorting a non-empty list is non-empty. -/
theorem sortBySimilarityDesc_ne_nil (l : List EvidenceMatch) (h : l ≠ []) :
    sortBySimilarityDesc l ≠ [] := by
  intro hc
  apply h
  have := (sortBySimilarityDesc_perm l).length_eq
  rw [hc] at this
  exact List.length_eq_zero.mp this.symm

/-- Claim C6: every evidence sequence returned by the Evidence
Retriever has length at most K, references no document id twice, and
lists similarity scores non-increasingly from the first entry to the
last. -/
theorem claim_C6_retrieval_invariants (K : Nat) (τ : Int) (store : List EvidenceDocument)
    (score : EvidenceDocument → Int) (q : DiagnosticQuery) :
    (retrieve K τ store score q).length ≤ K ∧
      ((retrieve K τ store score q).map (fun m => m.document.id)).Nodup ∧
      (retrieve K τ store score q).Pairwise scoreGE := by
  refine ⟨?_, ?_, ?_⟩
  · unfold retrieve
    exact List.length_take_le K _
  · unfold retrieve
    have hperm := (sortBySimilarityDesc_perm
      (dedupeById (selectFor τ (poolFor store score q)))).map (fun m => m.document.id)
    have hn := hperm.nodup_iff.mpr (dedupeById_nodup _)
    exact List.Nodup.sublist ((List.take_sublist K _).map _) hn
  · unfold retrieve
    exact List.Pairwise.sublist (List.take_sublist K _) (sortBySimilarityDesc_sorted _)

/-- Claim C7: the retriever discards candidates below the threshold,
except that when the filter would leave nothing and the store is
non-empty it returns exactly the single best match of the pool; hence
retrieval over a non-empty store never returns an empty evidence
sequence. -/
theorem claim_C7_threshold_with_best_escape (K : Nat) (τ : Int)
    (store : List EvidenceDocument) (score : EvidenceDocument → Int)
    (q : DiagnosticQuery) (hK : 1 ≤ K) (hs : store ≠ []) :
    retrieve K τ store score q ≠ [] ∧
      (keptFor τ (poolFor store score q) = [] →
        ∃ b, retrieve K τ store score q = [b] ∧ b ∈ poolFor store score q ∧
          ∀ m ∈ poolFor store score q, m.similarityScore ≤ b.similarityScore) ∧
      (keptFor τ (poolFor store score q) ≠ [] →
        ∀ m ∈ retrieve K τ store score q, τ ≤ m.similarityScore) := by
  have hpool : poolFor store score q ≠ [] := poolFor_ne_nil store score q hs
  have hmain : ∀ m ∈ retrieve K τ store score q, m ∈ selectFor τ (poolFor store score q) :=
    mem_retrieve_mem_selectFor K τ store score q
  refine ⟨?_, ?_, ?_⟩
  · have hsel : selectFor τ (poolFor store score q) ≠ [] := by
      unfold selectFor
      by_cases hk : (keptFor τ (poolFor store score q)).isEmpty
      · rw [if_pos hk]
        cases hp : poolFor store score q with
        | nil => exact absurd hp hpool
        | cons p ps => exact List.cons_ne_nil _ _
      · rw [if_neg hk]
        simpa [List.isEmpty_iff] using hk
    have hd := dedupeById_ne_nil _ hsel
    have hsort := sortBySimilarityDesc_ne_nil _ hd
    unfold retrieve
    intro hc
    have hlen := congrArg List.length hc
    rw [List.length_take] at hlen
    simp only [List.length_nil] at hlen
    rcases Nat.min_eq_zero_iff.mp hlen with h1 | h2
    · omega
    · exact hsort (List.length_eq_zero.mp h2)
  · intro hk
    cases hp : poolFor store score q with
    | nil => exact absurd hp hpool
    | cons p ps =>
      rw [hp] at hk
      have hsel := selectFor_of_kept_nil τ p ps hk
      refine ⟨bestOf p ps, ?_, ?_, ?_⟩
      · unfold retrieve
        rw [hp, hsel]
        have hded : dedupeById [bestOf p ps] = [bestOf p ps] := by
          unfold dedupeById dedupeAux
          rw [if_neg (List.not_mem_nil _)]
          rfl
        rw [hded]
        have hsort : sortBySimilarityDesc [bestOf p ps] = [bestOf p ps] := rfl
        rw [hsort]
        exact List.take_of_length_le (by simpa using hK)
      · exact bestOf_mem p ps
      · exact bestOf_max p ps
  · intro hk m hm
    have hsel := selectFor_of_kept_ne_nil τ (poolFor store score q) hk
    have h1 := hmain m hm
    rw [hsel] at h1
    have h2 := (List.mem_filter.mp h1).2
    simpa using h2

/-! ### Lemmas about the synthesizer -/

/-- A successfully validated reply yields a structurally valid report
that is not flagged as fallback and whose citations are the parsed
citations restricted to the supplied evidence ids. -/
theorem validateParsed_spec (ids : List String) (p : ParsedReport) (r : DiagnosticReport)
    (h : validateParsed ids p = some r) :
    validReport r = true ∧ r.usedFallback = false ∧
      r.citedEvidenceIds = p.citedEvidenceIds.filter (fun i => i ∈ ids) ∧
      hardRulesHold p = true := by
  cases hsev : parseSeverity p.severity with
  | none => simp [validateParsed, hsev] at h
  | some sev =>
    by_cases hr : hardRulesHold p
    · simp only [validateParsed, hsev, hr, Option.some_bind, if_true] at h
      have hrec := Option.some.inj h
      subst hrec
      refine ⟨?_, rfl, rfl, hr⟩
      unfold validReport
      unfold hardRulesHold at hr
      simp only [Bool.and_eq_true] at hr ⊢
      exact ⟨⟨⟨hr.1.1.1.1, hr.1.1.2⟩, hr.1.2⟩, hr.2⟩
    · simp [validateParsed, hsev, hr] at h

/-- Validation succeeds exactly when the hard rules hold. -/
theorem validateParsed_isSome_iff (ids : List String) (p : ParsedReport) :
    (validateParsed ids p).isSome = hardRulesHold p := by
  cases hsev : parseSeverity p.severity with
  | none =>
    have hfalse : hardRulesHold p = false := by
      unfold hardRulesHold
      rw [hsev]
      simp
    simp [validateParsed, hsev, hfalse]
  | some sev =>
    by_cases hr : hardRulesHold p
    · simp [validateParsed, hsev, hr]
    · simp only [Bool.not_eq_true] at hr
      simp [validateParsed, hsev, hr]

/-- The generically synthesized fallback steps are numbered
contiguously from 1. -/
theorem fallbackSteps_contiguous (remedy : String) :
    stepsContiguous (fallbackSteps remedy) = true := by
  unfold stepsContiguous fallbackSteps
  rw [decide_eq_true_eq, List.map_map, List.length_map]
  have h1 : ((fun s : RepairStep => s.stepNumber) ∘
      fun it : Nat × String => (⟨it.1, "Repair step", it.2, "varies"⟩ : RepairStep)) =
      Prod.fst := by
    funext it
    rfl
  rw [h1, List.enumFrom_map_fst, List.enumFrom_length]

/-- The fallback report always carries `usedFallback = true`. -/
theorem fallbackReport_usedFallback (ev : List EvidenceMatch) :
    (fallbackReport ev).usedFallback = true := by
  cases ev <;> rfl

/-- The fallback report is structurally valid whenever the evidence
documents carry non-empty diagnosis texts. -/
theorem fallbackReport_valid (ev : List EvidenceMatch)
    (h : ∀ m ∈ ev, m.document.diagnosisText ≠ "") :
    validReport (fallbackReport ev) = true := by
  cases ev with
  | nil => rfl
  | cons top rest =>
    unfold validReport fallbackReport
    simp only [Bool.and_eq_true, decide_eq_true_eq]
    refine ⟨⟨⟨?_, by omega, by omega⟩, ?_⟩, ?_⟩
    · exact h top (List.mem_cons_self top rest)
    · exact fallbackSteps_contiguous top.document.remedyText
    · rfl

/-- When the generation path fails — transport error, timeout, no
parseable object, or rejected validation — the synthesizer produces
exactly the fallback report. -/
theorem synthesize_of_genFails (ev : List EvidenceMatch) (g : GenOutcome)
    (h : generationSucceeds g ev = false) : synthesize ev g = fallbackReport ev := by
  cases g with
  | transportError => rfl
  | timeout => rfl
  | unparseable => rfl
  | parsed p =>
    cases hv : validateParsed (evidenceIds ev) p with
    | none => simp [synthesize, hv]
    | some r => simp [generationSucceeds, hv] at h

/-- When the generation path succeeds, the synthesizer returns the
validated report. -/
theorem synthesize_of_genSucceeds (ev : List EvidenceMatch) (g : GenOutcome)
    (h : generationSucceeds g ev = true) :
    ∃ p r, g = GenOutcome.parsed p ∧ validateParsed (evidenceIds ev) p = some r ∧
      synthesize ev g = r := by
  cases g with
  | transportError => simp [generationSucceeds] at h
  | timeout => simp [generationSucceeds] at h
  | unparseable => simp [generationSucceeds] at h
  | parsed p =>
    cases hv : validateParsed (evidenceIds ev) p with
    | none => simp [generationSucceeds, hv] at h
    | some r =>
      refine ⟨p, r, rfl, hv, ?_⟩
      simp [synthesize, hv]

/-- The synthesizer's output is structurally valid whenever the
evidence documents carry non-empty diagnosis texts. -/
theorem synthesize_valid (ev : List EvidenceMatch) (g : GenOutcome)
    (h : ∀ m ∈ ev, m.document.diagnosisText ≠ "") :
    validReport (synthesize ev g) = true := by
  cases hg : generationSucceeds g ev with
  | false => rw [synthesize_of_genFails ev g hg]; exact fallbackReport_valid ev h
  | true =>
    rcases synthesize_of_genSucceeds ev g hg with ⟨p, r, _, hv, hs⟩
    rw [hs]
    exact (validateParsed_spec _ p r hv).1

/-- The fallback report cites only ids surfaced by the evidence. -/
theorem fallbackReport_cited_subset (ev : List EvidenceMatch) :
    ∀ i ∈ (fallbackReport ev).citedEvidenceIds, i ∈ evidenceIds ev := by
  cases ev with
  | nil => intro i hi; simp [fallbackReport] at hi
  | cons top rest =>
    intro i hi
    simp only [fallbackReport, List.mem_singleton] at hi
    subst hi
    exact List.mem_map.mpr ⟨top, List.mem_cons_self top rest, rfl⟩

/-- The synthesizer's output cites only ids surfaced by the
evidence. -/
theorem synthesize_cited_subset (ev : List EvidenceMatch) (g : GenOutcome) :
    ∀ i ∈ (synthesize ev g).citedEvidenceIds, i ∈ evidenceIds ev := by
  cases hg : generationSucceeds g ev with
  | false =>
    rw [synthesize_of_genFails ev g hg]
    exact fallbackReport_cited_subset ev
  | true =>
    rcases synthesize_of_genSucceeds ev g hg with ⟨p, r, _, hv, hs⟩
    rw [hs]
    rcases validateParsed_spec _ p r hv with ⟨_, _, hcited, _⟩
    rw [hcited]
    intro i hi
    have := List.mem_filter.mp hi
    simpa using this.2

/-- `safeToDrive` as computed by the fallback is false exactly for
the high and critical severities. -/
theorem safeFor_false_iff (s : Severity) :
    safeFor s = false ↔ (s = Severity.high ∨ s = Severity.critical) := by
  cases s <;> simp [safeFor]

/-- Claim C3: whenever the generation path fails, the fallback report
is deterministic in the evidence: primary diagnosis is the top
match's diagnosis text (generic message without evidence), severity is
the top match's severity (medium without evidence), `safeToDrive` is
false exactly for high/critical severity, confidence is 0.3 (30
hundredths) with evidence and 0.1 (10) without, and
`usedFallback = true`. -/
theorem claim_C3_fallback_synthesis (ev : List EvidenceMatch) (g : GenOutcome)
    (h : generationSucceeds g ev = false) :
    (synthesize ev g).primaryDiagnosis =
        (match ev with
         | [] => insufficientInfoMessage
         | top :: _ => top.document.diagnosisText) ∧
      (synthesize ev g).severity =
        (match ev with
         | [] => Severity.medium
         | top :: _ => top.document.severity) ∧
      ((synthesize ev g).safeToDrive = false ↔
        ((synthesize ev g).severity = Severity.high ∨
          (synthesize ev g).severity = Severity.critical)) ∧
      (synthesize ev g).confidence = (if ev.isEmpty then 10 else 30) ∧
      (synthesize ev g).usedFallback = true := by
  rw [synthesize_of_genFails ev g h]
  cases ev with
  | nil =>
    refine ⟨rfl, rfl, ?_, rfl, rfl⟩
    simpa [fallbackReport] using safeFor_false_iff Severity.medium
  | cons top rest =>
    refine ⟨rfl, rfl, ?_, rfl, rfl⟩
    simpa [fallbackReport] using safeFor_false_iff top.document.severity

/-- Claim C4: the synthesizer checks every hard validation rule on a
parsed generation response, and returns the fallback report exactly
when one of them fails — a parsed response violating a hard rule is
never returned to the caller. -/
theorem claim_C4_hard_rule_validation (ev : List EvidenceMatch) (p : ParsedReport) :
    synthesize ev (GenOutcome.parsed p) = fallbackReport ev ↔ hardRulesHold p = false := by
  constructor
  · intro hfb
    cases hr : hardRulesHold p with
    | false => rfl
    | true =>
      have hsome : (validateParsed (evidenceIds ev) p).isSome = true := by
        rw [validateParsed_isSome_iff, hr]
      rcases Option.isSome_iff_exists.mp hsome with ⟨r, hv⟩
      have hsynth : synthesize ev (GenOutcome.parsed p) = r := by
        simp [synthesize, hv]
      have huf : r.usedFallback = false := (validateParsed_spec _ p r hv).2.1
      rw [hsynth] at hfb
      rw [hfb] at huf
      rw [fallbackReport_usedFallback ev] at huf
      exact absurd huf (by simp)
  · intro hr
    apply synthesize_of_genFails
    simp only [generationSucceeds]
    rw [validateParsed_isSome_iff, hr]

/-- Citation subsetting of an engine result: the report (when there
is one) cites only ids of the given list. -/
def citedSubsetOk (e : Except DiagError DiagnosticReport) (ids : List String) : Prop :=
  match e with
  | Except.ok r => ∀ i ∈ r.citedEvidenceIds, i ∈ ids
  | Except.error _ => True

/-- A successful engine result is exactly the synthesizer's output on
the retrieved evidence. -/
theorem diagnose_ok_eq (store : List EvidenceDocument) (env : Env) (q : DiagnosticQuery)
    (r : DiagnosticReport) (h : (diagnose store env q).1 = Except.ok r) :
    r = synthesize (retrievedEvidence store env q) env.gen := by
  unfold diagnose at h
  by_cases h1 : trimmedEmpty q.symptomText = true
  · rw [if_pos h1] at h
    exact absurd h (by simp)
  · rw [if_neg h1] at h
    by_cases h2 : env.cancelled = true
    · rw [if_pos h2] at h
      exact absurd h (by simp)
    · rw [if_neg h2] at h
      exact (Except.ok.inj h).symm

/-- Every retrieved evidence document for a well-formed store carries
a non-empty diagnosis text. -/
theorem retrievedEvidence_wf (store : List EvidenceDocument) (env : Env)
    (q : DiagnosticQuery) (hwf : storeWF store) :
    ∀ m ∈ retrievedEvidence store env q, m.document.diagnosisText ≠ "" := by
  intro m hm
  unfold retrievedEvidence at hm
  by_cases h : env.storeReachable = true
  · rw [if_pos h] at hm
    exact hwf m.document (retrieve_doc_mem_store _ _ _ _ _ m hm)
  · rw [if_neg h] at hm
    simp at hm

/-- Claim C5: the cited evidence ids of any report the engine returns
are a subset of the document ids retrieval surfaced for that request;
and a parsed response passing the hard rules is not rejected for
citing unknown ids — those ids are stripped instead. -/
theorem claim_C5_citations (store : List EvidenceDocument) (env : Env)
    (q : DiagnosticQuery) (ev : List EvidenceMatch) (p : ParsedReport)
    (hp : hardRulesHold p = true) :
    citedSubsetOk (diagnose store env q).1 (evidenceIds (retrievedEvidence store env q)) ∧
      (synthesize ev (GenOutcome.parsed p)).usedFallback = false ∧
      (synthesize ev (GenOutcome.parsed p)).citedEvidenceIds =
        p.citedEvidenceIds.filter (fun i => i ∈ evidenceIds ev) := by
  have hsome : (validateParsed (evidenceIds ev) p).isSome = true := by
    rw [validateParsed_isSome_iff, hp]
  rcases Option.isSome_iff_exists.mp hsome with ⟨r, hv⟩
  have hsynth : synthesize ev (GenOutcome.parsed p) = r := by
    simp [synthesize, hv]
  rcases validateParsed_spec _ p r hv with ⟨_, huf, hcited, _⟩
  refine ⟨?_, ?_, ?_⟩
  · unfold citedSubsetOk
    cases he : (diagnose store env q).1 with
    | error e => trivial
    | ok rep =>
      have := diagnose_ok_eq store env q rep he
      rw [this]
      exact synthesize_cited_subset _ _
  · rw [hsynth]; exact huf
  · rw [hsynth]; exact hcited

/-- Claim C2: a query whose symptom text is empty after trimming is
rejected with `InvalidQueryError` before any external call is made:
the engine's result is the error and its external-call trace is
empty. -/
theorem claim_C2_invalid_query_fails_fast (store : List EvidenceDocument) (env : Env)
    (q : DiagnosticQuery) (h : trimmedEmpty q.symptomText = true) :
    diagnose store env q = (Except.error DiagError.invalidQuery, []) := by
  unfold diagnose
  rw [if_pos h]

/-- Claim C1 (amended): for a structurally valid query the engine
never propagates an error other than cancellation — it returns a
structurally valid report under every external outcome; a generation,
parse or validation failure yields the fallback report
(`usedFallback = true`); an unreachable store degrades to the empty
evidence sequence rather than forcing the fallback report. -/
theorem claim_C1_absorbs_failures (store : List EvidenceDocument) (env : Env)
    (q : DiagnosticQuery) (hwf : storeWF store)
    (hq : trimmedEmpty q.symptomText = false) :
    (env.cancelled = true → (diagnose store env q).1 = Except.error DiagError.cancelled) ∧
      (env.cancelled = false →
        reportSat
          (fun r => validReport r = true ∧
            (generationSucceeds env.gen (retrievedEvidence store env q) = false →
              r.usedFallback = true))
          (diagnose store env q).1) ∧
      (env.storeReachable = false → retrievedEvidence store env q = []) := by
  refine ⟨?_, ?_, ?_⟩
  · intro hc
    unfold diagnose
    rw [if_neg (by simp [hq]), if_pos hc]
  · intro hc
    have hres : (diagnose store env q).1 =
        Except.ok (synthesize (retrievedEvidence store env q) env.gen) := by
      unfold diagnose
      rw [if_neg (by simp [hq]), if_neg (by simp [hc])]
    rw [hres]
    unfold reportSat
    refine ⟨?_, ?_⟩
    · exact synthesize_valid _ _ (retrievedEvidence_wf store env q hwf)
    · intro hg
      rw [synthesize_of_genFails _ _ hg]
      exact fallbackReport_usedFallback _
  · intro h
    unfold retrievedEvidence
    rw [if_neg (by simp [h])]

/-- Claim C8: with an audio signal present, the composed retrieval
query consists of the fixed-order vehicle year/make/model and symptom
text followed by the audio label repeated once plus once per 0.2 of
confidence above 0.5 (20 hundredths above 50); in particular at
confidence 0.9 the label occurs at least twice among the concatenated
parts. -/
theorem claim_C8_audio_label_weighting (q : DiagnosticQuery) (a : AudioSignal)
    (h : q.audioSignal = some a) :
    composeQueryParts q =
        [toString q.vehicle.year, q.vehicle.make, q.vehicle.model, q.symptomText] ++
          List.replicate (1 + audioExtraRepeats a.confidence) a.label ∧
      (a.confidence = 90 → 2 ≤ (composeQueryParts q).count a.label) := by
  have hparts : composeQueryParts q =
      [toString q.vehicle.year, q.vehicle.make, q.vehicle.model, q.symptomText] ++
        List.replicate (1 + audioExtraRepeats a.confidence) a.label := by
    unfold composeQueryParts audioOccurrences
    rw [h]
  refine ⟨hparts, ?_⟩
  intro hc
  rw [hparts, List.count_append]
  have hrep : (List.replicate (1 + audioExtraRepeats a.confidence) a.label).count a.label =
      1 + audioExtraRepeats a.confidence :=
    List.count_replicate_self a.label (1 + audioExtraRepeats a.confidence)
  rw [hrep]
  have hrepeats : audioExtraRepeats a.confidence = 2 := by
    rw [hc]
    rfl
  omega

/-! ### Lemmas about the JSON-span extraction -/

/-- `dropAfterLastClose` succeeds exactly when a closing brace is
present. -/
theorem dropAfterLastClose_isSome_iff (cs : List Char) :
    (dropAfterLastClose cs).isSome ↔ cbrace ∈ cs := by
  induction cs with
  | nil => simp [dropAfterLastClose]
  | cons c cs ih =>
    unfold dropAfterLastClose
    cases hd : dropAfterLastClose cs with
    | some t =>
      rw [hd] at ih
      simp only [Option.isSome_some, true_iff] at ih
      simp [List.mem_cons, ih]
    | none =>
      rw [hd] at ih
      simp only [Option.isSome_none, Bool.false_eq_true, false_iff] at ih
      by_cases hc : c = cbrace
      · simp [if_pos hc, List.mem_cons, hc]
      · simp only [if_neg hc, Option.isSome_none, Bool.false_eq_true, false_iff,
          List.mem_cons]
        intro hcontra
        rcases hcontra with h1 | h2
        · exact hc h1.symm
        · exact ih h2

/-- A successful span match implies a closing brace occurs in the
text. -/
theorem jsonSpanMatch_isSome_mem (cs : List Char) :
    (jsonSpanMatch cs).isSome → cbrace ∈ cs := by
  induction cs with
  | nil => intro h; simp [jsonSpanMatch] at h
  | cons c cs ih =>
    intro h
    unfold jsonSpanMatch at h
    by_cases hc : c = obrace
    · rw [if_pos hc] at h
      cases hd : dropAfterLastClose cs with
      | none => rw [hd] at h; simp at h
      | some t =>
        have := (dropAfterLastClose_isSome_iff cs).mp (by rw [hd]; rfl)
        exact List.mem_cons_of_mem c this
    · rw [if_neg hc] at h
      exact List.mem_cons_of_mem c (ih h)

/-- The span match succeeds exactly when some opening brace of the
text is followed, later, by a closing brace. -/
theorem jsonSpanMatch_isSome_iff (cs : List Char) :
    (jsonSpanMatch cs).isSome ↔ ∃ l m r, cs = l ++ obrace :: m ++ cbrace :: r := by
  induction cs with
  | nil =>
    simp only [jsonSpanMatch, Option.isSome_none, Bool.false_eq_true, false_iff]
    rintro ⟨l, m, r, h⟩
    have hlen := congrArg List.length h
    simp [List.length_append] at hlen
    omega
  | cons c cs ih =>
    unfold jsonSpanMatch
    by_cases hc : c = obrace
    · rw [if_pos hc]
      constructor
      · intro h
        have hmem : cbrace ∈ cs := by
          cases hd : dropAfterLastClose cs with
          | none => rw [hd] at h; simp at h
          | some t => exact (dropAfterLastClose_isSome_iff cs).mp (by rw [hd]; rfl)
        rcases List.append_of_mem hmem with ⟨m, r, hmr⟩
        exact ⟨[], m, r, by rw [hc, hmr]; rfl⟩
      · rintro ⟨l, m, r, h⟩
        have hmem : cbrace ∈ cs := by
          cases l with
          | nil =>
            rw [List.nil_append] at h
            injection h with h1 h2
            rw [h2]
            simp
          | cons x l' =>
            rw [List.cons_append] at h
            injection h with h1 h2
            rw [h2]
            simp
        rcases Option.isSome_iff_exists.mp ((dropAfterLastClose_isSome_iff cs).mpr hmem)
          with ⟨t, ht⟩
        rw [ht]
        rfl
    · rw [if_neg hc]
      rw [ih]
      constructor
      · rintro ⟨l, m, r, h⟩
        exact ⟨c :: l, m, r, by rw [h]; rfl⟩
      · rintro ⟨l, m, r, h⟩
        cases l with
        | nil =>
          rw [List.nil_append] at h
          injection h with h1 h2
          exact absurd h1 hc
        | cons x l' =>
          rw [List.cons_append] at h
          injection h with h1 h2
          exact ⟨l', m, r, h2⟩

/-- A balanced-block scan that succeeds saw a closing brace. -/
theorem matchFrom_mem_cbrace (d : Nat) (cs : List Char) (blk : List Char)
    (h : matchFrom d cs = some blk) : cbrace ∈ cs := by
  induction cs generalizing d blk with
  | nil => simp [matchFrom] at h
  | cons c cs ih =>
    unfold matchFrom at h
    by_cases hc : c = obrace
    · rw [if_pos hc] at h
      rcases Option.map_eq_some'.mp h with ⟨t, ht, _⟩
      exact List.mem_cons_of_mem c (ih _ _ ht)
    · rw [if_neg hc] at h
      by_cases hc2 : c = cbrace
      · rw [hc2]
        exact List.mem_cons_self _ _
      · rw [if_neg hc2] at h
        rcases Option.map_eq_some'.mp h with ⟨t, ht, _⟩
        exact List.mem_cons_of_mem c (ih _ _ ht)

/-- Whenever the text contains a balanced brace block, the greedy
span match also succeeds. -/
theorem firstBalancedBlock_isSome_imp (cs : List Char) :
    (firstBalancedBlock cs).isSome → (jsonSpanMatch cs).isSome := by
  induction cs with
  | nil => intro h; simp [firstBalancedBlock] at h
  | cons c cs ih =>
    intro h
    unfold firstBalancedBlock at h
    unfold jsonSpanMatch
    by_cases hc : c = obrace
    · rw [if_pos hc] at h
      rw [if_pos hc]
      have hmem : cbrace ∈ cs := by
        cases hm : matchFrom 1 cs with
        | some blk => exact matchFrom_mem_cbrace 1 cs blk hm
        | none =>
          rw [hm] at h
          exact jsonSpanMatch_isSome_mem cs (ih h)
      rcases Option.isSome_iff_exists.mp ((dropAfterLastClose_isSome_iff cs).mpr hmem)
        with ⟨t, ht⟩
      rw [ht]
      rfl
    · rw [if_neg hc] at h
      rw [if_neg hc]
      exact ih h

/-- Claim C9, counterexample: on the reply text `a\x7bb\x7dc\x7bd\x7de` the
first balanced block is `\x7bb\x7d`, but the extractor takes the greedy
span `\x7bb\x7dc\x7bd\x7d` from the first opening brace to the last closing
brace, which is not the first balanced block. -/
theorem claim_C9_counterexample :
    (firstBalancedBlock "a\x7bb\x7dc\x7bd\x7de".toList).isSome = true ∧
      firstBalancedBlock "a\x7bb\x7dc\x7bd\x7de".toList = some "\x7bb\x7d".toList ∧
      jsonSpanMatch "a\x7bb\x7dc\x7bd\x7de".toList = some "\x7bb\x7dc\x7bd\x7d".toList ∧
      jsonSpanMatch "a\x7bb\x7dc\x7bd\x7de".toList ≠
        firstBalancedBlock "a\x7bb\x7dc\x7bd\x7de".toList := by
  refine ⟨by decide, by decide, by decide, by decide⟩

/-- Claim C9 (amended): the parser extracts the greedy span from the
first opening brace to the last closing brace after it; extraction
succeeds exactly when some opening brace of the reply precedes a
closing brace — in particular whenever a balanced block exists — and
only in the remaining case does the synthesizer proceed directly to
the fallback.  The extracted span need not be the first balanced
block. -/
theorem claim_C9_amended_greedy_span (cs : List Char) :
    ((jsonSpanMatch cs).isSome ↔ ∃ l m r, cs = l ++ obrace :: m ++ cbrace :: r) ∧
      ((firstBalancedBlock cs).isSome → (jsonSpanMatch cs).isSome) :=
  ⟨jsonSpanMatch_isSome_iff cs, firstBalancedBlock_isSome_imp cs⟩

/-- Claim C10: in the diagnose route handler, a credit balance below
1 is rejected with the insufficient-credits error before anything is
generated; whenever the decrement effect occurs it comes strictly
after the generate effect; and a failing decrement does not fail the
request — the handler still saves and returns the completed diagnosis
while the credit balance is left unchanged. -/
theorem claim_C10_credit_check_and_decrement (env : RouteEnv) :
    (env.authOk = true → env.userFound = true → env.credits < 1 →
      diagnoseRoutePOST env = (RouteResponse.insufficientCredits, [], env.credits)) ∧
      (RouteEvent.decrement ∈ (diagnoseRoutePOST env).2.1 →
        (diagnoseRoutePOST env).2.1 =
          [RouteEvent.generate, RouteEvent.decrement, RouteEvent.save] ∧
        (diagnoseRoutePOST env).2.1.indexOf RouteEvent.generate <
          (diagnoseRoutePOST env).2.1.indexOf RouteEvent.decrement) ∧
      (env.authOk = true → env.userFound = true → 1 ≤ env.credits →
        env.fieldsOk = true → env.decrementOk = false →
        diagnoseRoutePOST env =
          (RouteResponse.success env.diagnosis,
            [RouteEvent.generate, RouteEvent.decrement, RouteEvent.save],
            env.credits)) := by
  refine ⟨?_, ?_, ?_⟩
  · intro ha hu hc
    unfold diagnoseRoutePOST
    rw [ha, hu]
    simp only [Bool.not_true, Bool.false_eq_true, if_false]
    rw [if_pos hc]
  · intro hmem
    unfold diagnoseRoutePOST at hmem ⊢
    by_cases ha : env.authOk
    · by_cases hu : env.userFound
      · by_cases hc : env.credits < 1
        · rw [ha, hu] at hmem ⊢
          simp only [Bool.not_true, Bool.false_eq_true, if_false] at hmem ⊢
          rw [if_pos hc] at hmem
          simp at hmem
        · by_cases hf : env.fieldsOk
          · rw [ha, hu, hf] at hmem ⊢
            simp only [Bool.not_true, Bool.false_eq_true, if_false] at hmem ⊢
            rw [if_neg hc] at hmem ⊢
            refine ⟨rfl, ?_⟩
            show List.indexOf RouteEvent.generate
                [RouteEvent.generate, RouteEvent.decrement, RouteEvent.save] <
              List.indexOf RouteEvent.decrement
                [RouteEvent.generate, RouteEvent.decrement, RouteEvent.save]
            decide
          · rw [ha, hu] at hmem ⊢
            simp only [Bool.not_true, Bool.false_eq_true, if_false] at hmem ⊢
            rw [if_neg hc] at hmem
            simp only [Bool.not_eq_true] at hf
            rw [hf] at hmem
            simp at hmem
      · simp only [Bool.not_eq_true] at hu
        rw [ha, hu] at hmem
        simp at hmem
    · simp only [Bool.not_eq_true] at ha
      rw [ha] at hmem
      simp at hmem
  · intro ha hu hc hf hd
    unfold diagnoseRoutePOST
    rw [ha, hu, hf, hd]
    simp only [Bool.not_true, Bool.false_eq_true, if_false]
    rw [if_neg (by omega)]

/-- Witness for the amended claim C9: a prose-wrapped reply
containing a balanced block is successfully span-matched. -/
theorem claim_C9_amended_greedy_span_witness :
    (jsonSpanMatch "ok \x7b1\x7d done".toList).isSome :=
  (claim_C9_amended_greedy_span "ok \x7b1\x7d done".toList).2 (by decide)

/-! ### Concrete instances -/

/-- A concrete evidence document (the spec §8 brake scenario). -/
def demoDoc : EvidenceDocument :=
  ⟨"tsb-001", "Honda", "Civic", 2012, 2017, "Brakes", "grinding noise when braking",
    "Worn front brake pads",
    "Replace the front brake pads. Resurface or replace the rotors. Road test the vehicle",
    Severity.high⟩

/-- The demo document with a concrete similarity score. -/
def demoMatch : EvidenceMatch := ⟨demoDoc, 80⟩

/-- A one-document store. -/
def demoStore : List EvidenceDocument := [demoDoc]

/-- The similarity assignment used in concrete runs. -/
def demoScore : EvidenceDocument → Int := fun _ => 80

/-- A concrete valid query (the spec §8 brake scenario). -/
def demoQuery : DiagnosticQuery :=
  ⟨⟨2015, "Honda", "Civic", none, none⟩, "grinding noise when braking", none, none⟩

/-- A concrete query with an audio signal at confidence 0.9. -/
def audioQuery : DiagnosticQuery :=
  ⟨⟨2015, "Honda", "Civic", none, none⟩, "whining noise",
    some ⟨"high-pitch whine", 90⟩, none⟩

/-- A query whose symptom text is whitespace only. -/
def blankQuery : DiagnosticQuery :=
  ⟨⟨2015, "Honda", "Civic", none, none⟩, "   ", none, none⟩

/-- A parsed generation reply that passes every hard rule but cites
one id the retriever never surfaced. -/
def demoParsed : ParsedReport :=
  ⟨"Worn serpentine belt", [], 85, "medium", true, [], [], zeroCost, [],
    ["tsb-001", "ghost-99"]⟩

/-- Environment: healthy store, generation returns the valid parsed
reply. -/
def demoEnvOk : Env := ⟨false, true, demoScore, GenOutcome.parsed demoParsed⟩

/-- Environment: healthy store, generation times out. -/
def demoEnvTimeout : Env := ⟨false, true, demoScore, GenOutcome.timeout⟩

/-- Environment: Evidence Store unreachable while generation still
returns the valid parsed reply. -/
def cexEnv : Env := ⟨false, false, demoScore, GenOutcome.parsed demoParsed⟩

/-- Route environment: authenticated user with zero credits. -/
def routeEnvBroke : RouteEnv := ⟨true, true, 0, true, fallbackReport [], true, true⟩

/-- Route environment: authenticated user with three credits whose
credit decrement fails. -/
def routeEnvDegraded : RouteEnv := ⟨true, true, 3, true, fallbackReport [], false, true⟩

/-- Claim C1, counterexample to the claim as stated: a retrieval
failure (unreachable Evidence Store) with a healthy generation path
produces a successful report with `usedFallback = false` — the
retrieval failure is absorbed by the empty evidence sequence, not by
the fallback report. -/
theorem claim_C1_counterexample :
    cexEnv.storeReachable = false ∧
      resultUsedFallback (diagnose demoStore cexEnv demoQuery).1 = some false := by
  exact ⟨rfl, by decide⟩

/-- Witness for claim C1 at a concrete store, environment and
query. -/
theorem claim_C1_absorbs_failures_witness :
    storeWF demoStore ∧ trimmedEmpty demoQuery.symptomText = false ∧
      ((demoEnvTimeout.cancelled = true →
          (diagnose demoStore demoEnvTimeout demoQuery).1 =
            Except.error DiagError.cancelled) ∧
        (demoEnvTimeout.cancelled = false →
          reportSat
            (fun r => validReport r = true ∧
              (generationSucceeds demoEnvTimeout.gen
                  (retrievedEvidence demoStore demoEnvTimeout demoQuery) = false →
                r.usedFallback = true))
            (diagnose demoStore demoEnvTimeout demoQuery).1) ∧
        (demoEnvTimeout.storeReachable = false →
          retrievedEvidence demoStore demoEnvTimeout demoQuery = [])) :=
  ⟨by decide, by decide,
    claim_C1_absorbs_failures demoStore demoEnvTimeout demoQuery (by decide) (by decide)⟩

/-- Witness for claim C2 at a whitespace-only query. -/
theorem claim_C2_invalid_query_fails_fast_witness :
    trimmedEmpty blankQuery.symptomText = true ∧
      diagnose demoStore cexEnv blankQuery = (Except.error DiagError.invalidQuery, []) :=
  ⟨by decide, claim_C2_invalid_query_fails_fast demoStore cexEnv blankQuery (by decide)⟩

/-- Witness for claim C3: a timed-out generation over one brake
document yields the deterministic fallback report. -/
theorem claim_C3_fallback_synthesis_witness :
    generationSucceeds GenOutcome.timeout [demoMatch] = false ∧
      ((synthesize [demoMatch] GenOutcome.timeout).primaryDiagnosis =
          "Worn front brake pads" ∧
        (synthesize [demoMatch] GenOutcome.timeout).severity = Severity.high ∧
        ((synthesize [demoMatch] GenOutcome.timeout).safeToDrive = false ↔
          ((synthesize [demoMatch] GenOutcome.timeout).severity = Severity.high ∨
            (synthesize [demoMatch] GenOutcome.timeout).severity = Severity.critical)) ∧
        (synthesize [demoMatch] GenOutcome.timeout).confidence = 30 ∧
        (synthesize [demoMatch] GenOutcome.timeout).usedFallback = true) :=
  ⟨by decide, claim_C3_fallback_synthesis [demoMatch] GenOutcome.timeout (by decide)⟩

/-- Witness for claim C5: the valid parsed reply citing the unknown
id `ghost-99` is accepted with that id stripped, and the engine's
citations stay within the retrieved ids. -/
theorem claim_C5_citations_witness :
    hardRulesHold demoParsed = true ∧
      (citedSubsetOk (diagnose demoStore demoEnvOk demoQuery).1
          (evidenceIds (retrievedEvidence demoStore demoEnvOk demoQuery)) ∧
        (synthesize [demoMatch] (GenOutcome.parsed demoParsed)).usedFallback = false ∧
        (synthesize [demoMatch] (GenOutcome.parsed demoParsed)).citedEvidenceIds =
          demoParsed.citedEvidenceIds.filter (fun i => i ∈ evidenceIds [demoMatch])) :=
  ⟨by decide,
    claim_C5_citations demoStore demoEnvOk demoQuery [demoMatch] demoParsed (by decide)⟩

/-- Witness for claim C7 at the one-document store with the default
K and threshold. -/
theorem claim_C7_threshold_with_best_escape_witness :
    (1 ≤ 5 ∧ demoStore ≠ []) ∧
      (retrieve 5 15 demoStore demoScore demoQuery ≠ [] ∧
        (keptFor 15 (poolFor demoStore demoScore demoQuery) = [] →
          ∃ b, retrieve 5 15 demoStore demoScore demoQuery = [b] ∧
            b ∈ poolFor demoStore demoScore demoQuery ∧
            ∀ m ∈ poolFor demoStore demoScore demoQuery,
              m.similarityScore ≤ b.similarityScore) ∧
        (keptFor 15 (poolFor demoStore demoScore demoQuery) ≠ [] →
          ∀ m ∈ retrieve 5 15 demoStore demoScore demoQuery,
            15 ≤ m.similarityScore)) :=
  ⟨⟨by decide, by decide⟩,
    claim_C7_threshold_with_best_escape 5 15 demoStore demoScore demoQuery
      (by decide) (by decide)⟩

/-- Witness for claim C8 at confidence 0.9: the label occurs three
times among the composed parts, hence at least twice. -/
theorem claim_C8_audio_label_weighting_witness :
    audioQuery.audioSignal = some ⟨"high-pitch whine", 90⟩ ∧
      (composeQueryParts audioQuery =
          [toString audioQuery.vehicle.year, audioQuery.vehicle.make,
            audioQuery.vehicle.model, audioQuery.symptomText] ++
            List.replicate (1 + audioExtraRepeats (90 : Int)) "high-pitch whine" ∧
        ((90 : Int) = 90 → 2 ≤ (composeQueryParts audioQuery).count "high-pitch whine")) :=
  ⟨rfl, claim_C8_audio_label_weighting audioQuery ⟨"high-pitch whine", 90⟩ rfl⟩

/-- Witness for claim C10: zero credits are rejected with no effects;
a failing decrement still returns the diagnosis with the balance
unchanged. -/
theorem claim_C10_credit_check_and_decrement_witness :
    diagnoseRoutePOST routeEnvBroke = (RouteResponse.insufficientCredits, [], 0) ∧
      diagnoseRoutePOST routeEnvDegraded =
        (RouteResponse.success (fallbackReport []),
          [RouteEvent.generate, RouteEvent.decrement, RouteEvent.save], 3) :=
  ⟨(claim_C10_credit_check_and_decrement routeEnvBroke).1 rfl rfl (by decide),
    (claim_C10_credit_check_and_decrement routeEnvDegraded).2.2 rfl rfl (by decide)
      rfl rfl⟩

end HandyMechanic
